import Mathlib

/-!
# Verification of the aeonflux ElGamal primitive (src/aeonflux/src/elgamal.rs)

The source implements ElGamal encryption over the Ristretto group of
curve25519.  That group is cyclic of prime order
l = 2^252 + 27742317777372353535851937790883648493, generated by the
Ristretto basepoint.  We therefore embed group elements by their discrete
logarithm with respect to the basepoint: a RistrettoPoint is a value of
ZMod l, the basepoint is 1, point addition and subtraction are addition and
subtraction in ZMod l, and multiplying a point by a Scalar (also ZMod l)
is multiplication in ZMod l.  This is an exact isomorphism of the group
structure the code relies on, so every algebraic identity proved here
transfers to the real group, and conversely.

The definitions below mirror the Rust source item by item: the structs
PublicKey, SecretKey, Keypair, Message, Encryption and Ephemeral, the
From conversions, the Add implementation on Encryption, and the encrypt
and decrypt methods.  Random sampling (Scalar.random over a csprng) is
modelled by passing the sampled scalar explicitly as an argument.
-/

/-- Order of the Ristretto group (the prime l of curve25519). -/
def ristrettoOrder : ℕ := 2 ^ 252 + 27742317777372353535851937790883648493

/-- A scalar modulo the group order, mirroring curve25519_dalek Scalar. -/
abbrev Scalar : Type := ZMod ristrettoOrder

/-- A Ristretto group element, represented by its discrete logarithm with
respect to the basepoint. -/
abbrev RistrettoPoint : Type := ZMod ristrettoOrder

/-- The Ristretto basepoint (RISTRETTO_BASEPOINT_TABLE): discrete log 1. -/
def basepointTable : RistrettoPoint := 1

/-- Scalar multiplication of a point, mirroring the library operation
point * scalar; in discrete-log representation this is ring multiplication. -/
def pointMul (p : RistrettoPoint) (s : Scalar) : RistrettoPoint := p * s

/-- pub struct PublicKey(pub(crate) RistrettoPoint). -/
structure PublicKey where
  point : RistrettoPoint
deriving DecidableEq

/-- pub struct SecretKey(pub(crate) Scalar). -/
structure SecretKey where
  scalar : Scalar
deriving DecidableEq

/-- pub struct Keypair with secret and public fields. -/
structure Keypair where
  secret : SecretKey
  publicKey : PublicKey
deriving DecidableEq

/-- pub struct Message(pub(crate) RistrettoPoint). -/
structure Message where
  point : RistrettoPoint
deriving DecidableEq

/-- pub struct Encryption with commitment and encryption fields. -/
structure Encryption where
  commitment : RistrettoPoint
  encryption : RistrettoPoint
deriving DecidableEq

/-- pub struct Ephemeral(pub Scalar): a nonce used in encryptions. -/
structure Ephemeral where
  scalar : Scalar
deriving DecidableEq

/-- impl From for Message from a Scalar:
Message(source * RISTRETTO_BASEPOINT_TABLE). -/
def Message.fromScalar (source : Scalar) : Message :=
  ⟨pointMul basepointTable source⟩

/-- impl Add for Encryption: componentwise addition of the two fields. -/
def Encryption.add (self other : Encryption) : Encryption :=
  { commitment := self.commitment + other.commitment
  , encryption := self.encryption + other.encryption }

/-- impl From Scalar for Ephemeral: Ephemeral(source). -/
def Ephemeral.fromScalar (source : Scalar) : Ephemeral := ⟨source⟩

/-- PublicKey.encrypt:
commitment = RISTRETTO_BASEPOINT_TABLE * nonce.0;
encryption = message.0 + (self.0 * nonce.0). -/
def PublicKey.encrypt (self : PublicKey) (message : Message)
    (nonce : Ephemeral) : Encryption :=
  { commitment := pointMul basepointTable nonce.scalar
  , encryption := message.point + pointMul self.point nonce.scalar }

/-- impl From SecretKey for PublicKey:
PublicKey(RISTRETTO_BASEPOINT_TABLE * secret.0). -/
def PublicKey.fromSecretKey (secret : SecretKey) : PublicKey :=
  ⟨pointMul basepointTable secret.scalar⟩

/-- SecretKey.generate: wraps one scalar drawn from the csprng; the drawn
scalar is passed explicitly here. -/
def SecretKey.generate (random : Scalar) : SecretKey := ⟨random⟩

/-- SecretKey.decrypt:
secret = encryption.commitment * self.0;
result = encryption.encryption - secret. -/
def SecretKey.decrypt (self : SecretKey) (encryption : Encryption) :
    RistrettoPoint :=
  encryption.encryption - pointMul encryption.commitment self.scalar

/-- Keypair.generate: secret = SecretKey.generate(csprng);
public = PublicKey.from(secret); the drawn scalar is passed explicitly. -/
def Keypair.generate (random : Scalar) : Keypair :=
  let secret : SecretKey := SecretKey.generate random
  let publicKey : PublicKey := PublicKey.fromSecretKey secret
  ⟨secret, publicKey⟩

/-- Keypair.encrypt: forwards to self.public.encrypt(message, nonce). -/
def Keypair.encrypt (self : Keypair) (message : Message)
    (nonce : Ephemeral) : Encryption :=
  self.publicKey.encrypt message nonce

/-- Claim C1: for every secret key sk with derived public key
pk = generator * sk, every message encoded from a scalar, and every nonce,
decrypt(sk, encrypt(pk, m, n)) equals the encoded message point. -/
theorem elgamal_roundtrip (sk : SecretKey) (s : Scalar) (n : Ephemeral) :
    sk.decrypt ((PublicKey.fromSecretKey sk).encrypt (Message.fromScalar s) n)
      = (Message.fromScalar s).point := by
  simp only [SecretKey.decrypt, PublicKey.encrypt, PublicKey.fromSecretKey,
    Message.fromScalar, pointMul, basepointTable]
  ring

/-- Claim C2: for every keypair derived from a secret key, messages encoded
from scalars s1 and s2, and nonces n1 and n2, decrypting the sum of the two
encryptions yields the sum of the two encoded message points. -/
theorem elgamal_homomorphic_decrypt (sk : SecretKey) (s1 s2 : Scalar)
    (n1 n2 : Ephemeral) :
    sk.decrypt
        (Encryption.add
          ((PublicKey.fromSecretKey sk).encrypt (Message.fromScalar s1) n1)
          ((PublicKey.fromSecretKey sk).encrypt (Message.fromScalar s2) n2))
      = (Message.fromScalar s1).point + (Message.fromScalar s2).point := by
  simp only [SecretKey.decrypt, PublicKey.encrypt, PublicKey.fromSecretKey,
    Message.fromScalar, Encryption.add, pointMul, basepointTable]
  ring

/-- Claim C3: encrypt(pk, m, n) returns an Encryption whose commitment is
generator * n and whose encryption is m.point + pk.point * n. -/
theorem encrypt_fields (pk : PublicKey) (m : Message) (n : Ephemeral) :
    (pk.encrypt m n).commitment = pointMul basepointTable n.scalar ∧
    (pk.encrypt m n).encryption = m.point + pointMul pk.point n.scalar :=
  ⟨rfl, rfl⟩

/-- Claim C4: decrypt(sk, c) returns c.encryption minus
c.commitment * sk.secret, a total operation defined on every Encryption. -/
theorem decrypt_formula (sk : SecretKey) (c : Encryption) :
    sk.decrypt c = c.encryption - pointMul c.commitment sk.scalar :=
  rfl

/-- Claim C5: add(c1, c2) returns the componentwise group sum of the two
Encryptions, a total operation defined on every pair of Encryptions. -/
theorem encryption_add_fields (c1 c2 : Encryption) :
    (Encryption.add c1 c2).commitment = c1.commitment + c2.commitment ∧
    (Encryption.add c1 c2).encryption = c1.encryption + c2.encryption :=
  ⟨rfl, rfl⟩

/-- Claim C7: every Keypair produced by Keypair.generate satisfies
public = generator * secret, and deriving a PublicKey from the same
SecretKey twice yields identical results, each equal to
generator * secret. -/
theorem keypair_invariant_and_derivation (r : Scalar) (sk : SecretKey) :
    (Keypair.generate r).publicKey.point
        = pointMul basepointTable (Keypair.generate r).secret.scalar ∧
    PublicKey.fromSecretKey sk = PublicKey.fromSecretKey sk ∧
    (PublicKey.fromSecretKey sk).point
        = pointMul basepointTable sk.scalar :=
  ⟨rfl, rfl, rfl⟩

/-- Claim C8: the message encoding maps a scalar s to generator * s, is
deterministic, and is injective over the scalar field. -/
theorem message_encoding_spec :
    (∀ s : Scalar, (Message.fromScalar s).point = pointMul basepointTable s)
    ∧ ∀ s1 s2 : Scalar,
        (Message.fromScalar s1).point = (Message.fromScalar s2).point →
          s1 = s2 := by
  refine ⟨fun s => rfl, fun s1 s2 h => ?_⟩
  simpa [Message.fromScalar, pointMul, basepointTable] using h

/-- Witness for claim C8: the injectivity implication applied at the
concrete scalar 3. -/
theorem message_encoding_spec_witness : (3 : Scalar) = 3 :=
  message_encoding_spec.2 3 3 rfl

/-- Claim C9: encryption via a Keypair is identical to encryption via its
embedded PublicKey. -/
theorem keypair_encrypt_forwards (kp : Keypair) (m : Message)
    (n : Ephemeral) :
    kp.encrypt m n = kp.publicKey.encrypt m n :=
  rfl

/-- Claim C10: the sum of two ciphertexts of encoded scalars s1 and s2
under nonces n1 and n2 is literally the ciphertext of the encoding of
s1 + s2 under the nonce n1 + n2, componentwise. -/
theorem ciphertext_sum_is_ciphertext (pk : PublicKey) (s1 s2 : Scalar)
    (n1 n2 : Scalar) :
    Encryption.add
        (pk.encrypt (Message.fromScalar s1) (Ephemeral.fromScalar n1))
        (pk.encrypt (Message.fromScalar s2) (Ephemeral.fromScalar n2))
      = pk.encrypt (Message.fromScalar (s1 + s2))
          (Ephemeral.fromScalar (n1 + n2)) := by
  simp only [Encryption.add, PublicKey.encrypt, Message.fromScalar,
    Ephemeral.fromScalar, pointMul, basepointTable, Encryption.mk.injEq]
  constructor <;> ring
